import Mathlib

/-
Verification of the ckb-cli hardware-wallet signing adapter and DAO signing
pipeline.  The Rust sources are shallowly embedded: bytes are `Nat` values,
byte buffers are `List Nat`, fallible code returns `Except`/`Option`, and the
external collaborators (USB transport, RPC client, index database, blake2b,
secp256k1) are abstracted as parameters exactly at their call boundaries.
-/

-- ===== byte utilities =====

/-- Little-endian value of a byte list: byte 0 is least significant. -/
def leValue : List Nat → Nat
  | [] => 0
  | b :: bs => b + 256 * leValue bs

/-- The four little-endian bytes of a 32-bit value (`u32::to_le_bytes`). -/
def u32le (n : Nat) : List Nat :=
  [n % 256, n / 256 % 256, n / 256 ^ 2 % 256, n / 256 ^ 3 % 256]

/-- The eight little-endian bytes of a 64-bit value (`u64::to_le_bytes`). -/
def u64le (n : Nat) : List Nat :=
  [n % 256, n / 256 % 256, n / 256 ^ 2 % 256, n / 256 ^ 3 % 256,
   n / 256 ^ 4 % 256, n / 256 ^ 5 % 256, n / 256 ^ 6 % 256, n / 256 ^ 7 % 256]

-- ===== APDU frames (ledger::ApduCommand) =====

/-- An APDU command frame, from `ledger::ApduCommand` as used in
`ckb-ledger/src/lib.rs` (the `length` byte always equals `data.length`
at every construction site, so it is not carried separately). -/
structure ApduCommand where
  cla : Nat
  ins : Nat
  p1 : Nat
  p2 : Nat
  data : List Nat
deriving DecidableEq, Repr

-- ===== streaming sign chunking (ckb-ledger/src/lib.rs, begin_sign_recoverable) =====

/-- `MAX_APDU_SIZE` from `ckb-ledger/src/lib.rs`. -/
def MAX_APDU_SIZE : Nat := 230

/-- `SignP1::FIRST` bit pattern. -/
def SignP1_FIRST : Nat := 0x00

/-- `SignP1::NEXT` bit pattern. -/
def SignP1_NEXT : Nat := 0x01

/-- `SignP1::LAST_MARKER` bit pattern. -/
def SignP1_LAST_MARKER : Nat := 0x80

/-- The `chunk` closure of `begin_sign_recoverable`
(`ckb-ledger/src/lib.rs` lines 256-281), modelled as producing the list of
APDU command frames sent to the device, in order.  Each iteration takes at
most `MAX_APDU_SIZE` bytes off the front of the message; the last frame has
`LAST_MARKER` or-ed into `p1`, and every frame after the first uses
`SignP1::NEXT` as its base `p1`. -/
def chunk (base : Nat) (message : List Nat) : List ApduCommand :=
  if h : 0 < (message.drop (min message.length MAX_APDU_SIZE)).length then
    { cla := 0x80, ins := 0x03, p1 := base, p2 := 0,
      data := message.take (min message.length MAX_APDU_SIZE) } ::
      chunk SignP1_NEXT (message.drop (min message.length MAX_APDU_SIZE))
  else
    [{ cla := 0x80, ins := 0x03, p1 := base ||| SignP1_LAST_MARKER, p2 := 0,
       data := message.take (min message.length MAX_APDU_SIZE) }]
termination_by message.length
decreasing_by
  simp only [List.length_drop, MAX_APDU_SIZE] at h ⊢
  omega

/-- The full chunked APDU stream for one streaming sign: the first chunk is
sent with `SignP1::FIRST` as base. -/
def sign_chunk_apdus (message : List Nat) : List ApduCommand :=
  chunk SignP1_FIRST message

theorem chunk_ne_nil (base : Nat) (message : List Nat) :
    chunk base message ≠ [] := by
  rw [chunk.eq_def]
  split <;> simp

theorem chunk_flatten (base : Nat) (message : List Nat) :
    ((chunk base message).map ApduCommand.data).flatten = message := by
  rw [chunk.eq_def]
  by_cases h : 0 < (message.drop (min message.length MAX_APDU_SIZE)).length
  · have ih := chunk_flatten SignP1_NEXT
      (message.drop (min message.length MAX_APDU_SIZE))
    simp only [dif_pos h, List.map_cons, List.flatten_cons, ih]
    exact List.take_append_drop _ _
  · simp only [dif_neg h]
    simp only [List.length_drop, Nat.not_lt, Nat.le_zero, Nat.sub_eq_zero_iff_le] at h
    simp [List.take_of_length_le h]
termination_by message.length
decreasing_by
  simp only [List.length_drop, MAX_APDU_SIZE] at h ⊢
  omega

theorem chunk_shape (base : Nat) (message : List Nat) (hne : message ≠ [])
    (a : ApduCommand) (ha : a ∈ chunk base message) :
    a.cla = 0x80 ∧ a.ins = 0x03 ∧ a.p2 = 0 ∧
      a.data.length ≤ MAX_APDU_SIZE ∧ 0 < a.data.length := by
  rw [chunk.eq_def] at ha
  by_cases h : 0 < (message.drop (min message.length MAX_APDU_SIZE)).length
  · rw [dif_pos h] at ha
    rcases List.mem_cons.mp ha with rfl | hmem
    · refine ⟨rfl, rfl, rfl, ?_, ?_⟩
      · simp [Nat.min_le_right]
      · have hpos : 0 < message.length := List.length_pos.mpr hne
        simp only [List.length_take]
        simp only [MAX_APDU_SIZE]
        omega
    · have hrest : message.drop (min message.length MAX_APDU_SIZE) ≠ [] := by
        intro hcon
        rw [hcon] at h
        simp at h
      exact chunk_shape SignP1_NEXT _ hrest a hmem
  · rw [dif_neg h] at ha
    rcases List.mem_singleton.mp ha with rfl
    refine ⟨rfl, rfl, rfl, ?_, ?_⟩
    · simp [Nat.min_le_right]
    · have hpos : 0 < message.length := List.length_pos.mpr hne
      simp only [List.length_take]
      simp only [MAX_APDU_SIZE]
      omega
termination_by message.length
decreasing_by
  simp only [List.length_drop, MAX_APDU_SIZE] at h ⊢
  omega

theorem chunk_p1 (base : Nat) (message : List Nat) (i : Nat)
    (hi : i < (chunk base message).length) :
    ((chunk base message)[i]?).map ApduCommand.p1 =
      some ((if i = 0 then base else SignP1_NEXT) |||
            (if i + 1 = (chunk base message).length then SignP1_LAST_MARKER else 0)) := by
  rw [chunk.eq_def] at hi ⊢
  by_cases h : 0 < (message.drop (min message.length MAX_APDU_SIZE)).length
  · rw [dif_pos h] at hi ⊢
    rcases i with _ | j
    · have hlen : 0 < (chunk SignP1_NEXT
          (message.drop (min message.length MAX_APDU_SIZE))).length :=
        List.length_pos.mpr (chunk_ne_nil _ _)
      have hne1 : ¬ (0 + 1 = (chunk SignP1_NEXT
          (message.drop (min message.length MAX_APDU_SIZE))).length + 1) := by omega
      simp [hne1]
    · simp only [List.getElem?_cons_succ, List.length_cons]
      simp only [List.length_cons] at hi
      have hj : j < (chunk SignP1_NEXT
          (message.drop (min message.length MAX_APDU_SIZE))).length := by omega
      have ih := chunk_p1 SignP1_NEXT
        (message.drop (min message.length MAX_APDU_SIZE)) j hj
      rw [ih]
      have hiff : (j + 1 + 1 = (chunk SignP1_NEXT
          (message.drop (min message.length MAX_APDU_SIZE))).length + 1) ↔
          (j + 1 = (chunk SignP1_NEXT
            (message.drop (min message.length MAX_APDU_SIZE))).length) := by
        omega
      simp [hiff]
  · rw [dif_neg h] at hi ⊢
    simp only [List.length_cons, List.length_nil] at hi
    have hzero : i = 0 := by omega
    subst hzero
    simp
termination_by message.length
decreasing_by
  simp only [List.length_drop, MAX_APDU_SIZE] at h ⊢
  omega

/-- Claim C1: for every non-empty payload, the streaming sign splits the
payload into consecutive chunks (their data concatenates back to the payload)
of at most 230 bytes each, each sent as an APDU with cla 0x80, ins 0x03,
p2 0; the first chunk has base p1 FIRST (0x00), every later chunk has the
NEXT bit (0x01), and the LAST_MARKER bit (0x80) is or-ed in exactly on the
final chunk. -/
theorem C1_streaming_sign_chunk_protocol (message : List Nat) (hne : message ≠ []) :
    ((sign_chunk_apdus message).map ApduCommand.data).flatten = message ∧
    (∀ a ∈ sign_chunk_apdus message,
        a.cla = 0x80 ∧ a.ins = 0x03 ∧ a.p2 = 0 ∧
          a.data.length ≤ MAX_APDU_SIZE ∧ 0 < a.data.length) ∧
    (∀ i, i < (sign_chunk_apdus message).length →
        ((sign_chunk_apdus message)[i]?).map ApduCommand.p1 =
          some ((if i = 0 then SignP1_FIRST else SignP1_NEXT) |||
                (if i + 1 = (sign_chunk_apdus message).length
                  then SignP1_LAST_MARKER else 0))) := by
  refine ⟨chunk_flatten _ _, ?_, ?_⟩
  · intro a ha
    exact chunk_shape _ _ hne a ha
  · intro i hi
    exact chunk_p1 _ _ i hi

/-- Witness for C1 at the concrete three-byte message `[1, 2, 3]`. -/
theorem C1_streaming_sign_chunk_protocol_witness :
    ([1, 2, 3] : List Nat) ≠ [] ∧
    (((sign_chunk_apdus [1, 2, 3]).map ApduCommand.data).flatten = [1, 2, 3] ∧
    (∀ a ∈ sign_chunk_apdus [1, 2, 3],
        a.cla = 0x80 ∧ a.ins = 0x03 ∧ a.p2 = 0 ∧
          a.data.length ≤ MAX_APDU_SIZE ∧ 0 < a.data.length) ∧
    (∀ i, i < (sign_chunk_apdus [1, 2, 3]).length →
        ((sign_chunk_apdus [1, 2, 3])[i]?).map ApduCommand.p1 =
          some ((if i = 0 then SignP1_FIRST else SignP1_NEXT) |||
                (if i + 1 = (sign_chunk_apdus [1, 2, 3]).length
                  then SignP1_LAST_MARKER else 0)))) :=
  ⟨by decide, C1_streaming_sign_chunk_protocol [1, 2, 3] (by decide)⟩

-- ===== AnnotatedTransaction rebuild (ckb-ledger/src/lib.rs lines 221-248) =====

/-- The sign-time pre-image handed to the device.  The generated molecule
code is external; the adapter only reads and overwrites the two path fields,
so the struct is modelled with its two `Bip32` fields (each a list of
four-byte little-endian child-number encodings) plus the remaining payload
kept opaque. -/
structure AnnotatedTransaction where
  sign_path : List (List Nat)
  change_path : List (List Nat)
  rest : List Nat
deriving DecidableEq, Repr

/-- `raw_path` construction in `begin_sign_recoverable`: each `u32` child
number of the derivation path is serialized via `to_le_bytes` into the four
octet fields of a molecule `Uint32`. -/
def build_sign_path (path : List Nat) : List (List Nat) :=
  path.map u32le

/-- The wire bytes of a molecule `Bip32` fixvec: a four-byte little-endian
item count followed by the four-byte items. -/
def serializeBip32 (p : List (List Nat)) : List Nat :=
  u32le p.length ++ p.flatten

/-- The message rebuild in `begin_sign_recoverable`
(`ckb-ledger/src/lib.rs` lines 236-248): overwrite `sign_path` with the
path built from the handle, and `change_path` with the sign path exactly
when the incoming `change_path` has length zero. -/
def rebuild_with_paths (path : List Nat) (m : AnnotatedTransaction) : AnnotatedTransaction :=
  { m with
    sign_path := build_sign_path path,
    change_path :=
      if m.change_path.length = 0 then build_sign_path path else m.change_path }

/-- Claim C2: if the incoming `change_path` has length zero the rebuilt wire
message carries a `change_path` equal (byte for byte) to the `sign_path`
built from the derivation path of the handle; otherwise the wire
`change_path` byte-equals the one supplied by the caller. -/
theorem C2_change_path_substitution (path : List Nat) (m : AnnotatedTransaction) :
    (rebuild_with_paths path m).sign_path = build_sign_path path ∧
    (m.change_path.length = 0 →
        serializeBip32 (rebuild_with_paths path m).change_path =
          serializeBip32 (build_sign_path path)) ∧
    (m.change_path.length ≠ 0 →
        serializeBip32 (rebuild_with_paths path m).change_path =
          serializeBip32 m.change_path) := by
  refine ⟨rfl, ?_, ?_⟩
  · intro hzero
    simp [rebuild_with_paths, hzero]
  · intro hnz
    simp [rebuild_with_paths, hnz]

/-- Witness for C2 at a caller-supplied empty change path and at a non-empty
one. -/
theorem C2_change_path_substitution_witness :
    ((⟨[], [], [9]⟩ : AnnotatedTransaction).change_path.length = 0 ∧
      serializeBip32 (rebuild_with_paths [44] ⟨[], [], [9]⟩).change_path =
        serializeBip32 (build_sign_path [44])) ∧
    ((⟨[], [[7, 0, 0, 0]], [9]⟩ : AnnotatedTransaction).change_path.length ≠ 0 ∧
      serializeBip32 (rebuild_with_paths [44] ⟨[], [[7, 0, 0, 0]], [9]⟩).change_path =
        serializeBip32 [[7, 0, 0, 0]]) :=
  ⟨⟨by decide, (C2_change_path_substitution [44] ⟨[], [], [9]⟩).2.1 (by decide)⟩,
   ⟨by decide, (C2_change_path_substitution [44] ⟨[], [[7, 0, 0, 0]], [9]⟩).2.2 (by decide)⟩⟩

-- ===== errors and response parsing (ckb-ledger) =====

/-- The ledger key-store error type.  The concrete `error` module of
`ckb-ledger` is not included under `src/`; the constructors needed by the
embedded code are modelled from the error taxonomy of the spec
(UnexpectedEndOfData / TrailingData for APDU response parsing,
DeviceNotFound for a registry miss, Unsupported for hash-only signing). -/
inductive LedgerKeyStoreError where
  | UnexpectedEndOfData
  | TrailingData
  | LedgerNotFound (id : List Nat)
  | Unsupported (msg : String)
deriving DecidableEq, Repr

/-- Modelled from the spec: `parse::split_off_at(n)` returns the first `n`
bytes and leaves the remainder in the input buffer; it fails with
`UnexpectedEndOfData` when fewer than `n` bytes remain. -/
def split_off_at (n : Nat) (input : List Nat) :
    Except LedgerKeyStoreError (List Nat × List Nat) :=
  if n ≤ input.length then .ok (input.take n, input.drop n)
  else .error .UnexpectedEndOfData

/-- Modelled from the spec: `parse::assert_nothing_left` fails with
`TrailingData` when the input buffer is not empty. -/
def assert_nothing_left (input : List Nat) : Except LedgerKeyStoreError Unit :=
  if input = [] then .ok () else .error .TrailingData

/-- A raw ledger transport: a single `exchange` operation mapping an APDU
command to the data field of the response (or a transport failure). -/
structure LedgerDevice where
  exchange : ApduCommand → Except LedgerKeyStoreError (List Nat)

/-- Modelled from the spec: the `apdu::get_wallet_id` command frame.  The
spec fixes cla 0x80, p1 0, p2 0 and an empty payload for the identify
command; the ins byte is not given by the spec and its value is irrelevant
to every theorem below. -/
def get_wallet_id : ApduCommand :=
  { cla := 0x80, ins := 0x01, p1 := 0, p2 := 0, data := [] }

/-- A device session: the cached 32-byte wallet id plus the shared
transport (`LedgerMasterCap` in `ckb-ledger/src/lib.rs`). -/
structure LedgerMasterCap where
  id : List Nat
  device : LedgerDevice

/-- `LedgerMasterCap::from_ledger` (`ckb-ledger/src/lib.rs` lines 111-128):
issue `get_wallet_id`, take the first 32 bytes as the device id, read and
discard the next 32 bytes, and require that nothing is left. -/
def from_ledger (dev : LedgerDevice) : Except LedgerKeyStoreError LedgerMasterCap :=
  match dev.exchange get_wallet_id with
  | .error e => .error e
  | .ok response =>
    match split_off_at 32 response with
    | .error e => .error e
    | .ok (raw_wallet_id, resp1) =>
      match split_off_at 32 resp1 with
      | .error e => .error e
      | .ok (_, resp2) =>
        match assert_nothing_left resp2 with
        | .error e => .error e
        | .ok _ => .ok { id := raw_wallet_id, device := dev }

/-- A transport that answers every exchange with the fixed byte string
`resp`. -/
def constDevice (resp : List Nat) : LedgerDevice :=
  { exchange := fun _ => .ok resp }

/-- Claim C7: opening a session parses the `get_wallet_id` response by
taking the first 32 bytes as the device id and discarding the next 32; a
response shorter than 64 bytes fails with `UnexpectedEndOfData`, a longer
one fails with `TrailingData`, and exactly 64 bytes yield a session whose
id is the first 32 bytes. -/
theorem C7_wallet_id_parse (resp : List Nat) :
    from_ledger (constDevice resp) =
      if resp.length < 64 then .error .UnexpectedEndOfData
      else if resp.length = 64 then
        .ok { id := resp.take 32, device := constDevice resp }
      else .error .TrailingData := by
  have hdrop : (resp.drop 32).length = resp.length - 32 := List.length_drop _ _
  by_cases h1 : 32 ≤ resp.length
  · by_cases h2 : 32 ≤ (resp.drop 32).length
    · have hflat : (resp.drop 32).drop 32 = resp.drop 64 := by
        rw [List.drop_drop]
      by_cases h3 : resp.drop 64 = []
      · have hlen : resp.length ≤ 64 := by
          have := List.drop_eq_nil_iff.mp h3
          omega
        have hexact : resp.length = 64 := by omega
        simp [from_ledger, constDevice, split_off_at, assert_nothing_left,
          h1, h2, hflat, h3, hexact]
      · have hgt : 64 < resp.length := by
          rcases Nat.lt_or_ge 64 resp.length with hlt | hge
          · exact hlt
          · exact absurd (List.drop_eq_nil_iff.mpr hge) h3
        have hne : ¬ resp.length < 64 := by omega
        have hne2 : ¬ resp.length = 64 := by omega
        have h2x : 32 ≤ resp.length - 32 := by omega
        simp [from_ledger, constDevice, split_off_at, assert_nothing_left,
          h1, h2x, hflat, h3, hne, hne2]
    · have hlt : resp.length < 64 := by omega
      have h2x : ¬ 32 ≤ resp.length - 32 := by
        rw [hdrop] at h2
        exact h2
      simp [from_ledger, constDevice, split_off_at, h1, h2x, hlt]
  · have hlt : resp.length < 64 := by omega
    simp [from_ledger, constDevice, split_off_at, h1, hlt]

-- ===== key-store registry (ckb-ledger/src/lib.rs lines 40-98) =====

/-- The ledger key-store: its table of discovered devices, keyed by wallet
id (`HashMap` modelled as an association list). -/
structure LedgerKeyStore where
  discovered_devices : List (List Nat × LedgerMasterCap)

/-- `LedgerKeyStore::refresh` (`ckb-ledger/src/lib.rs` lines 55-64): clear
the table, then, only if a raw transport opens successfully, insert the one
discovered device.  A failed transport open (`attached = none`) is silently
ignored; a successful open still propagates `from_ledger` failures. -/
def LedgerKeyStore.refresh (attached : Option LedgerDevice) (_ks : LedgerKeyStore) :
    Except LedgerKeyStoreError LedgerKeyStore :=
  match attached with
  | none => .ok { discovered_devices := [] }
  | some dev =>
    match from_ledger dev with
    | .error e => .error e
    | .ok cap => .ok { discovered_devices := [(cap.id, cap)] }

/-- `LedgerKeyStore::list_accounts` (`ckb-ledger/src/lib.rs` lines 76-80):
refresh, then return the current key set (and the refreshed store, since the
Rust method mutates `self`). -/
def LedgerKeyStore.list_accounts (attached : Option LedgerDevice) (ks : LedgerKeyStore) :
    Except LedgerKeyStoreError (List (List Nat) × LedgerKeyStore) :=
  match ks.refresh attached with
  | .error e => .error e
  | .ok ks1 => .ok (ks1.discovered_devices.map Prod.fst, ks1)

/-- `LedgerKeyStore::borrow_account` (`ckb-ledger/src/lib.rs` lines 87-97):
refresh, then look the id up, failing with `LedgerNotFound` on a miss. -/
def LedgerKeyStore.borrow_account (attached : Option LedgerDevice)
    (ks : LedgerKeyStore) (account_id : List Nat) :
    Except LedgerKeyStoreError (LedgerMasterCap × LedgerKeyStore) :=
  match ks.refresh attached with
  | .error e => .error e
  | .ok ks1 =>
    match ks1.discovered_devices.find? (fun p => p.fst == account_id) with
    | some p => .ok (p.snd, ks1)
    | none => .error (.LedgerNotFound account_id)

/-- Claim C9: with no ledger attached (or a failed transport open),
`list_accounts` succeeds with an empty iterator instead of surfacing a
transport error, and the only surfaced failure for a missing device is the
`LedgerNotFound` returned by a subsequent `borrow_account`. -/
theorem C9_no_device_is_silent (ks : LedgerKeyStore) (account_id : List Nat) :
    LedgerKeyStore.list_accounts none ks =
      .ok ([], { discovered_devices := [] }) ∧
    LedgerKeyStore.borrow_account none ks account_id =
      .error (.LedgerNotFound account_id) :=
  ⟨rfl, rfl⟩

-- ===== hash-only signing (ckb-ledger/src/lib.rs lines 205-209) =====

/-- A derivation-path handle (`LedgerCap`): the session plus the bound
derivation path (child numbers as 32-bit values). -/
structure LedgerCap where
  master : LedgerMasterCap
  path : List Nat

/-- The possible outcomes of a Rust call, distinguishing a returned error
from a panic (an `unimplemented!` or failed assertion never returns). -/
inductive RustOutcome (α : Type) where
  | ok (value : α)
  | err (e : LedgerKeyStoreError)
  | panicked (msg : String)
deriving DecidableEq, Repr

/-- `AbstractPrivKey::sign` for `LedgerCap`
(`ckb-ledger/src/lib.rs` lines 205-209).  The body is exactly
`unimplemented!("Need to generalize method to not take hash")`: the call
panics unconditionally, produces no signature, and sends no APDU (the
second component lists the APDUs exchanged with the device, and is empty). -/
def LedgerCap.sign (_self : LedgerCap) (_message : List Nat) :
    RustOutcome (List Nat) × List ApduCommand :=
  (.panicked "Need to generalize method to not take hash", [])

/-- Counterexample to claim C6 as stated: at a concrete handle and 32-byte
hash, `sign` does not return an `Unsupported` error (it panics instead). -/
theorem C6_sign_not_unsupported_error :
    (LedgerCap.sign
        { master := { id := List.replicate 32 0, device := constDevice [] },
          path := [44] }
        (List.replicate 32 0)).1 ≠
      RustOutcome.err (.Unsupported "hash-only signing") := by
  decide

/-- Claim C6 (amended): for every ledger derivation handle and every
message, the hash-only sign operation panics via `unimplemented!` with the
message "Need to generalize method to not take hash"; it never produces a
signature, never returns at all, and never contacts the device (no APDU is
exchanged). -/
theorem C6_sign_always_panics (cap : LedgerCap) (message : List Nat) :
    LedgerCap.sign cap message =
      (.panicked "Need to generalize method to not take hash", []) := rfl

-- ===== WitnessArgs (molecule table, ckb_types) =====

/-- Modelled from the spec: `WitnessArgs` is the structured witness record
with three optional byte-string fields (the molecule codec generated for it
is an external collaborator, consumed as builder/reader objects). -/
structure WitnessArgs where
  lock : Option (List Nat)
  input_type : Option (List Nat)
  output_type : Option (List Nat)
deriving DecidableEq, Repr

/-- `WitnessArgs::default()`: all three fields absent. -/
def WitnessArgs.default : WitnessArgs :=
  { lock := none, input_type := none, output_type := none }

/-- Modelled from the spec: the body bytes of a molecule `BytesOpt` field —
empty when absent, otherwise a four-byte little-endian length prefix
followed by the content. -/
def bytesOptBody : Option (List Nat) → List Nat
  | none => []
  | some bs => u32le bs.length ++ bs

/-- Modelled from the spec: `WitnessArgs::as_bytes`, the canonical molecule
table layout — a four-byte little-endian total size, three four-byte
little-endian field offsets, then the three field bodies in order. -/
def WitnessArgs.as_bytes (w : WitnessArgs) : List Nat :=
  u32le (16 + (bytesOptBody w.lock).length + (bytesOptBody w.input_type).length +
      (bytesOptBody w.output_type).length) ++
    u32le 16 ++
    u32le (16 + (bytesOptBody w.lock).length) ++
    u32le (16 + (bytesOptBody w.lock).length + (bytesOptBody w.input_type).length) ++
    bytesOptBody w.lock ++ bytesOptBody w.input_type ++ bytesOptBody w.output_type

/-- Modelled from the spec: the verifying reader for a molecule `Bytes`
body — the four-byte little-endian length prefix must match the remaining
byte count exactly. -/
def parseBytes (bs : List Nat) : Option (List Nat) :=
  if 4 ≤ bs.length ∧ leValue (bs.take 4) = bs.length - 4 then some (bs.drop 4)
  else none

/-- Modelled from the spec: the verifying reader for a molecule `BytesOpt`
field body — an empty body is an absent field. -/
def parseBytesOpt (bs : List Nat) : Option (Option (List Nat)) :=
  if bs = [] then some none
  else (parseBytes bs).map some

/-- Modelled from the spec: `WitnessArgs::from_slice`, the verifying reader
for the canonical three-field molecule table layout — the declared total
size must equal the slice length, the first offset must point just past the
header, offsets must be monotone, and each field body must itself verify. -/
def WitnessArgs.from_slice (bs : List Nat) : Option WitnessArgs :=
  if 16 ≤ bs.length then
    if leValue (bs.take 4) = bs.length ∧
        leValue ((bs.drop 4).take 4) = 16 ∧
        16 ≤ leValue ((bs.drop 8).take 4) ∧
        leValue ((bs.drop 8).take 4) ≤ leValue ((bs.drop 12).take 4) ∧
        leValue ((bs.drop 12).take 4) ≤ bs.length then
      match parseBytesOpt ((bs.drop 16).take (leValue ((bs.drop 8).take 4) - 16)),
          parseBytesOpt ((bs.drop (leValue ((bs.drop 8).take 4))).take
            (leValue ((bs.drop 12).take 4) - leValue ((bs.drop 8).take 4))),
          parseBytesOpt (bs.drop (leValue ((bs.drop 12).take 4))) with
      | some f1, some f2, some f3 =>
        some { lock := f1, input_type := f2, output_type := f3 }
      | _, _, _ => none
    else none
  else none

-- ===== sighash digest (src/src/subcommands/dao/mod.rs lines 240-263) =====

/-- The `init_witness` construction of `install_sighash_witness`
(`src/src/subcommands/dao/mod.rs` lines 240-250): start from the default
`WitnessArgs` when the first witness is empty, otherwise from its parse,
then set the `lock` field to 65 zero bytes.  `none` models the propagated
molecule verification error. -/
def init_witness (w0 : List Nat) : Option WitnessArgs :=
  (if w0 = [] then some WitnessArgs.default else WitnessArgs.from_slice w0).map
    (fun w => { w with lock := some (List.replicate 65 0) })

/-- The incremental blake2b absorption of `install_sighash_witness`
(`src/src/subcommands/dao/mod.rs` lines 251-263), with the CKB-personalized
blake2b-256 finalization abstracted as `H` over the absorbed byte stream
(the hash primitive is an external collaborator): absorb the raw
transaction hash, then the init witness prefixed by its byte length as a
64-bit little-endian integer, then each remaining witness with the same
length prefix. -/
def digestFold (H : List Nat → List Nat) (txHash : List Nat) (iw : WitnessArgs)
    (otherWitnesses : List (List Nat)) : List Nat :=
  H (otherWitnesses.foldl (fun st w => st ++ u64le w.length ++ w)
      (([] : List Nat) ++ txHash ++ u64le iw.as_bytes.length ++ iw.as_bytes))

/-- The digest computation applied to a full witness vector: the first
witness seeds the init witness, the rest are absorbed in order.  `none`
models the panic on an empty witness vector (`witnesses[0]`) and the
molecule parse failure. -/
def install_sighash_digest (H : List Nat → List Nat) (txHash : List Nat)
    (witnesses : List (List Nat)) : Option (List Nat) :=
  match witnesses with
  | [] => none
  | w0 :: rest => (init_witness w0).map (fun iw => digestFold H txHash iw rest)

theorem foldl_update_append (rest : List (List Nat)) (s : List Nat) :
    rest.foldl (fun st w => st ++ u64le w.length ++ w) s =
      s ++ (rest.map (fun w => u64le w.length ++ w)).flatten := by
  induction rest generalizing s with
  | nil => simp
  | cons w ws ih =>
    simp only [List.foldl_cons, List.map_cons, List.flatten_cons]
    rw [ih]
    simp [List.append_assoc]

/-- Claim C3: for every transaction handed to the sighash finalizer, the
signing digest is the (CKB-personalized blake2b-256) hash `H` of: the raw
transaction hash, then the init witness — the first witness with its lock
field set to 65 zero bytes — prefixed by its byte length as an 8-byte
little-endian integer, then each remaining witness in order, each prefixed
by its byte length as an 8-byte little-endian integer. -/
theorem C3_sighash_digest_transcript (H : List Nat → List Nat) (txHash : List Nat)
    (w0 : List Nat) (rest : List (List Nat)) (iw : WitnessArgs)
    (hparse : init_witness w0 = some iw) :
    install_sighash_digest H txHash (w0 :: rest) =
      some (H (txHash ++ u64le iw.as_bytes.length ++ iw.as_bytes ++
        (rest.map (fun w => u64le w.length ++ w)).flatten)) := by
  simp only [install_sighash_digest, hparse, Option.map]
  unfold digestFold
  rw [foldl_update_append]
  simp [List.append_assoc]

/-- Witness for C3 at an empty first witness and one further witness. -/
theorem C3_sighash_digest_transcript_witness :
    init_witness [] =
      some { lock := some (List.replicate 65 0), input_type := none,
             output_type := none } ∧
    install_sighash_digest (fun x => x) [9] ([] :: [[5]]) =
      some ((fun x => x)
        ([9] ++
          u64le ({ lock := some (List.replicate 65 0), input_type := none,
                   output_type := none } : WitnessArgs).as_bytes.length ++
          ({ lock := some (List.replicate 65 0), input_type := none,
             output_type := none } : WitnessArgs).as_bytes ++
          ([[5]].map (fun w => u64le w.length ++ w)).flatten)) :=
  ⟨by decide,
   C3_sighash_digest_transcript (fun x => x) [9] [] [[5]]
     { lock := some (List.replicate 65 0), input_type := none,
       output_type := none } (by decide)⟩

-- ===== sighash finalizer (src/src/subcommands/dao/mod.rs lines 220-292) =====

/-- `SIGHASH_TYPE_HASH` from the external ckb-sdk constants: the 32-byte
type-script hash of the canonical secp256k1/blake160 sighash lock. -/
def SIGHASH_TYPE_HASH : List Nat :=
  [0x9b, 0xd7, 0xe0, 0x6f, 0x3e, 0xcf, 0x4b, 0xe0, 0xf2, 0xfc, 0xd2, 0x18,
   0x8b, 0x23, 0xf1, 0xb9, 0xfc, 0xc8, 0x8e, 0x5d, 0x4b, 0x65, 0xa8, 0x63,
   0x7b, 0x17, 0x72, 0x3b, 0xbd, 0xa3, 0xcc, 0xe8]

/-- A lock or type script: code hash, hash type (`ScriptHashType::Type` is
encoded as 1), args. -/
structure Script where
  code_hash : List Nat
  hash_type : Nat
  args : List Nat
deriving DecidableEq, Repr

/-- A transaction output as far as the finalizer inspects it. -/
structure CellOutput where
  capacity : Nat
  lock : Script
deriving DecidableEq, Repr

/-- The transaction view consumed and rebuilt by the finalizer.  The raw
transaction hash is a deterministic function of everything except the
witnesses; the builder rebuild (`as_advanced_builder` followed by
`set_witnesses` and `build`) keeps every non-witness field, so the cached
hash is carried as a field. -/
structure TransactionViewM where
  inputs : List (List Nat)
  outputs : List CellOutput
  outputs_data : List (List Nat)
  cell_deps : List (List Nat)
  header_deps : List (List Nat)
  witnesses : List (List Nat)
  hash_bytes : List Nat
deriving DecidableEq, Repr

/-- The per-output precondition asserted by `install_sighash_witness`
(`src/src/subcommands/dao/mod.rs` lines 224-228): the lock has hash type
`Type`, 20-byte args, and the sighash code hash. -/
def outputLockOk (o : CellOutput) : Bool :=
  o.lock.hash_type == 1 && o.lock.args.length == 20 &&
    o.lock.code_hash == SIGHASH_TYPE_HASH

/-- The per-witness precondition asserted by `install_sighash_witness`
(`src/src/subcommands/dao/mod.rs` lines 229-233): a witness that parses as
`WitnessArgs` carries no lock field. -/
def witnessNoLock (w : List Nat) : Bool :=
  match WitnessArgs.from_slice w with
  | some wa => wa.lock.isNone
  | none => true

/-- `install_sighash_witness` (`src/src/subcommands/dao/mod.rs` lines
220-292): assert the preconditions, build the init witness, compute the
digest, obtain the 65-byte signature from the signer, and rebuild the
transaction with witness 0 replaced by the init witness whose lock is the
signature.  Failed `assert!` calls and the `witnesses[0]` panic are
modelled as errors; both only shrink the success set. -/
def install_sighash_witness (H : List Nat → List Nat)
    (signer : List Nat → Except String (List Nat))
    (tx : TransactionViewM) : Except String TransactionViewM :=
  if !(tx.outputs.all outputLockOk) then .error "assertion failed: output lock shape"
  else if !(tx.witnesses.all witnessNoLock) then
    .error "assertion failed: witness already carries a lock"
  else
    match tx.witnesses with
    | [] => .error "panic: index out of bounds on witnesses"
    | w0 :: rest =>
      match init_witness w0 with
      | none => .error "molecule verification error"
      | some iw =>
        match signer (digestFold H tx.hash_bytes iw rest) with
        | .error e => .error e
        | .ok signature =>
          .ok { tx with
                witnesses := ({ iw with lock := some signature } :
                    WitnessArgs).as_bytes :: rest }

/-- Claim C10: whenever `install_sighash_witness` succeeds, only witness 0
changes — every witness at index 1 and above, and the inputs, outputs,
outputs-data, cell-deps and header-deps (hence the raw transaction hash)
are byte-identical to the input transaction. -/
theorem C10_install_sighash_witness_frame (H : List Nat → List Nat)
    (signer : List Nat → Except String (List Nat)) (tx tx1 : TransactionViewM)
    (hok : install_sighash_witness H signer tx = .ok tx1) :
    tx1.inputs = tx.inputs ∧ tx1.outputs = tx.outputs ∧
    tx1.outputs_data = tx.outputs_data ∧ tx1.cell_deps = tx.cell_deps ∧
    tx1.header_deps = tx.header_deps ∧ tx1.hash_bytes = tx.hash_bytes ∧
    tx1.witnesses.length = tx.witnesses.length ∧
    tx1.witnesses.drop 1 = tx.witnesses.drop 1 := by
  unfold install_sighash_witness at hok
  split at hok
  · exact absurd hok (by simp)
  split at hok
  · exact absurd hok (by simp)
  split at hok
  · exact absurd hok (by simp)
  next w0 rest hwit =>
    split at hok
    · exact absurd hok (by simp)
    next iw hiw =>
      split at hok
      · exact absurd hok (by simp)
      next signature hs =>
        injection hok with htx1
        subst htx1
        refine ⟨rfl, rfl, rfl, rfl, rfl, rfl, ?_, ?_⟩
        · simp [hwit]
        · simp [hwit]

/-- The concrete transaction used to witness C10. -/
def c10ExampleTx : TransactionViewM :=
  { inputs := [[1]], outputs := [], outputs_data := [[2]], cell_deps := [[3]],
    header_deps := [[4]], witnesses := [[], [7, 7]],
    hash_bytes := List.replicate 32 0 }

/-- The witness-args record spliced into witness 0 in the C10 witness. -/
def c10SignedWA : WitnessArgs :=
  { lock := some (List.replicate 65 1), input_type := none, output_type := none }

/-- The expected result transaction in the C10 witness. -/
def c10ResultTx : TransactionViewM :=
  { c10ExampleTx with witnesses := c10SignedWA.as_bytes :: [[7, 7]] }

/-- Witness for C10 at a concrete transaction, identity hash and constant
signer. -/
theorem C10_install_sighash_witness_frame_witness :
    install_sighash_witness (fun x => x) (fun _ => .ok (List.replicate 65 1))
        c10ExampleTx = .ok c10ResultTx ∧
    c10ResultTx.witnesses.drop 1 = c10ExampleTx.witnesses.drop 1 :=
  ⟨by rfl,
   (C10_install_sighash_witness_frame (fun x => x)
     (fun _ => .ok (List.replicate 65 1)) c10ExampleTx c10ResultTx
     (by rfl)).2.2.2.2.2.2.2⟩

-- ===== DAO sighash cell collection (src/src/subcommands/dao/mod.rs lines 143-181) =====

/-- `MIN_SECP_CELL_CAPACITY` from the external ckb-sdk constants: 61 CKB in
shannons. -/
def MIN_SECP_CELL_CAPACITY : Nat := 6100000000

/-- The fields of the (external) `LiveCellInfo` record that
`collect_sighash_cells` inspects. -/
structure LiveCellInfo where
  capacity : Nat
  data_bytes : Nat
  type_hashes : Option (List Nat)
  number : Nat
deriving DecidableEq, Repr

/-- The early-return condition of the terminator closure in
`collect_sighash_cells` (`src/src/subcommands/dao/mod.rs` lines 148-153):
a cell is skipped — `(false, false)` — exactly when it is NOT
(type-script-free and data-free) AND it is mature.  The external
`is_mature(cell, max_mature_number)` predicate lives outside `src/` and is
passed in as `mature`. -/
def sighashSkip (mature : LiveCellInfo → Bool) (cell : LiveCellInfo) : Bool :=
  !(cell.type_hashes.isNone && cell.data_bytes == 0) && mature cell

/-- The `enough` update of the terminator closure
(`src/src/subcommands/dao/mod.rs` lines 155-160): after adding a cell the
accumulated capacity either equals the target exactly or reaches
`target + MIN_SECP_CELL_CAPACITY`. -/
def enoughAfter (target take_capacity : Nat) : Bool :=
  take_capacity == target ||
    decide (target + MIN_SECP_CELL_CAPACITY ≤ take_capacity)

/-- Modelled from the spec: the index-database enumeration
(`get_live_cells_by_lock` with a terminator) visits the candidate cells in
order, pushes a cell when the terminator returns `take = true`, and breaks
as soon as it returns `stop = true`.  The result triple is
`(enough, take_capacity, taken cells)`, mirroring the closure state of
`collect_sighash_cells`. -/
def collectLoop (mature : LiveCellInfo → Bool) (target : Nat) :
    Nat → List LiveCellInfo → Bool × Nat × List LiveCellInfo
  | take_capacity, [] => (false, take_capacity, [])
  | take_capacity, cell :: cells =>
    if sighashSkip mature cell then
      collectLoop mature target take_capacity cells
    else
      if enoughAfter target (take_capacity + cell.capacity) then
        (true, take_capacity + cell.capacity, [cell])
      else
        match collectLoop mature target (take_capacity + cell.capacity) cells with
        | (enough, final_capacity, taken) => (enough, final_capacity, cell :: taken)

/-- `collect_sighash_cells` (`src/src/subcommands/dao/mod.rs` lines
143-181): run the terminator-driven enumeration from zero accumulated
capacity; if `enough` never became true, fail with the
capacity-insufficient error carrying the source address and the capacity
gathered. -/
def collect_sighash_cells (mature : LiveCellInfo → Bool) (from_address : String)
    (target_capacity : Nat) (cells : List LiveCellInfo) :
    Except (String × Nat) (List LiveCellInfo) :=
  match collectLoop mature target_capacity 0 cells with
  | (enough, take_capacity, taken) =>
    if enough then .ok taken else .error (from_address, take_capacity)

/-- The capacity sum of a cell list. -/
def sumCap (cells : List LiveCellInfo) : Nat :=
  (cells.map LiveCellInfo.capacity).sum

theorem collectLoop_spec (mature : LiveCellInfo → Bool) (target : Nat)
    (cells : List LiveCellInfo) (acc : Nat) :
    (collectLoop mature target acc cells).2.1 =
        acc + sumCap (collectLoop mature target acc cells).2.2 ∧
    ((collectLoop mature target acc cells).1 = true →
        enoughAfter target (collectLoop mature target acc cells).2.1 = true ∧
        ∀ k, 0 < k → k < (collectLoop mature target acc cells).2.2.length →
          enoughAfter target
            (acc + sumCap ((collectLoop mature target acc cells).2.2.take k)) = false) ∧
    ((collectLoop mature target acc cells).1 = false →
        (collectLoop mature target acc cells).2.2 =
          cells.filter (fun c => !sighashSkip mature c) ∧
        ∀ k, 0 < k → k ≤ (collectLoop mature target acc cells).2.2.length →
          enoughAfter target
            (acc + sumCap ((collectLoop mature target acc cells).2.2.take k)) = false) := by
  induction cells generalizing acc with
  | nil =>
    refine ⟨by simp [collectLoop, sumCap], ?_, ?_⟩
    · intro hcon
      simp [collectLoop] at hcon
    · intro _
      constructor
      · simp [collectLoop]
      · intro k hk hkle
        simp [collectLoop] at hkle
        omega
  | cons cell cells ih =>
    by_cases hskip : sighashSkip mature cell
    · have hred : collectLoop mature target acc (cell :: cells) =
          collectLoop mature target acc cells := by
        simp [collectLoop, hskip]
      rw [hred]
      rcases ih acc with ⟨ih1, ih2, ih3⟩
      refine ⟨ih1, ih2, ?_⟩
      intro hfalse
      rcases ih3 hfalse with ⟨ihf, ihp⟩
      exact ⟨by simp [List.filter_cons, hskip, ihf], ihp⟩
    · by_cases henough : enoughAfter target (acc + cell.capacity)
      · have hred : collectLoop mature target acc (cell :: cells) =
            (true, acc + cell.capacity, [cell]) := by
          simp [collectLoop, hskip, henough]
        rw [hred]
        refine ⟨by simp [sumCap], ?_, ?_⟩
        · intro _
          refine ⟨henough, ?_⟩
          intro k hk hklt
          simp at hklt
          omega
        · intro hcon
          simp at hcon
      · have hred : collectLoop mature target acc (cell :: cells) =
            ((collectLoop mature target (acc + cell.capacity) cells).1,
             (collectLoop mature target (acc + cell.capacity) cells).2.1,
             cell :: (collectLoop mature target (acc + cell.capacity) cells).2.2) := by
          simp only [collectLoop, if_neg hskip, if_neg henough]
        rw [hred]
        rcases ih (acc + cell.capacity) with ⟨ih1, ih2, ih3⟩
        have hsum : ∀ taken, acc + sumCap (cell :: taken) =
            acc + cell.capacity + sumCap taken := by
          intro taken
          simp [sumCap]
          omega
        refine ⟨?_, ?_, ?_⟩
        · simp only [hsum]
          exact ih1
        · intro htrue
          rcases ih2 htrue with ⟨ihe, ihp⟩
          refine ⟨ihe, ?_⟩
          intro k hk hklt
          rcases k with _ | j
          · omega
          · rcases j with _ | j2
            · simpa [sumCap] using henough
            · simp only [List.length_cons] at hklt
              have hj : 0 < j2 + 1 ∧ j2 + 1 <
                  (collectLoop mature target (acc + cell.capacity) cells).2.2.length := by
                omega
              have := ihp (j2 + 1) hj.1 hj.2
              simpa [List.take_cons, hsum] using this
        · intro hfalse
          rcases ih3 hfalse with ⟨ihf, ihp⟩
          refine ⟨?_, ?_⟩
          · simp [List.filter_cons, hskip, ihf]
          · intro k hk hkle
            rcases k with _ | j
            · omega
            · rcases j with _ | j2
              · simpa [sumCap] using henough
              · simp only [List.length_cons] at hkle
                have hj : 0 < j2 + 1 ∧ j2 + 1 ≤
                    (collectLoop mature target (acc + cell.capacity) cells).2.2.length := by
                  omega
                have := ihp (j2 + 1) hj.1 hj.2
                simpa [List.take_cons, hsum] using this

/-- Claim C5: the collection stops accumulating exactly when the running
capacity sum first equals the target or reaches
`target + MIN_SECP_CELL_CAPACITY`; on success the returned cells satisfy
the stop condition while no shorter non-empty prefix does, and when the
enumeration ends without ever reaching the condition the result is the
capacity-insufficient error carrying the source address and the total
capacity gathered over all accepted cells (none of whose running sums
reached the condition). -/
theorem C5_collect_sighash_stop_condition (mature : LiveCellInfo → Bool)
    (from_address : String) (target : Nat) (cells : List LiveCellInfo) :
    (∀ cs, collect_sighash_cells mature from_address target cells = .ok cs →
        enoughAfter target (sumCap cs) = true ∧
        ∀ k, 0 < k → k < cs.length →
          enoughAfter target (sumCap (cs.take k)) = false) ∧
    (∀ a have_capacity,
        collect_sighash_cells mature from_address target cells =
            .error (a, have_capacity) →
        a = from_address ∧
        have_capacity = sumCap (cells.filter (fun c => !sighashSkip mature c)) ∧
        ∀ k, 0 < k → k ≤ (cells.filter (fun c => !sighashSkip mature c)).length →
          enoughAfter target
            (sumCap ((cells.filter (fun c => !sighashSkip mature c)).take k)) =
              false) := by
  rcases collectLoop_spec mature target cells 0 with ⟨hsum, htrue, hfalse⟩
  constructor
  · intro cs hok
    unfold collect_sighash_cells at hok
    rcases hres : collectLoop mature target 0 cells with ⟨e, fc, taken⟩
    rw [hres] at hok
    rcases e with _ | _
    · simp at hok
    · simp at hok
      rcases htrue (by rw [hres]) with ⟨he, hp⟩
      rw [hres] at he hp hsum
      simp only at he hp hsum
      subst hok
      constructor
      · rw [hsum] at he
        simpa using he
      · intro k hk hklt
        have := hp k hk hklt
        simpa using this
  · intro a have_capacity herr
    unfold collect_sighash_cells at herr
    rcases hres : collectLoop mature target 0 cells with ⟨e, fc, taken⟩
    rw [hres] at herr
    rcases e with _ | _
    · simp at herr
      rcases hfalse (by rw [hres]) with ⟨hfilter, hp⟩
      rw [hres] at hfilter hp hsum
      simp only at hfilter hp hsum
      refine ⟨herr.1.symm, ?_, ?_⟩
      · rw [← herr.2, hsum, hfilter]
        simp
      · intro k hk hkle
        rw [← hfilter] at hkle ⊢
        have := hp k hk hkle
        simpa using this
    · simp at herr

/-- A pure, single-target-capacity cell used to witness C5. -/
def c5PureCell : LiveCellInfo :=
  { capacity := 100, data_bytes := 0, type_hashes := none, number := 0 }

/-- Witness for C5: a successful collection at an exactly-matching cell and
a failing collection over no cells. -/
theorem C5_collect_sighash_stop_condition_witness :
    (enoughAfter 100 (sumCap [c5PureCell]) = true ∧
      ∀ k, 0 < k → k < ([c5PureCell] : List LiveCellInfo).length →
        enoughAfter 100 (sumCap (([c5PureCell] : List LiveCellInfo).take k)) =
          false) ∧
    ("addr" = "addr" ∧
      (0 : Nat) =
        sumCap (([] : List LiveCellInfo).filter
          (fun c => !sighashSkip (fun _ => true) c)) ∧
      ∀ k, 0 < k →
        k ≤ (([] : List LiveCellInfo).filter
          (fun c => !sighashSkip (fun _ => true) c)).length →
        enoughAfter 100
          (sumCap ((([] : List LiveCellInfo).filter
            (fun c => !sighashSkip (fun _ => true) c)).take k)) = false) :=
  ⟨(C5_collect_sighash_stop_condition (fun _ => true) "addr" 100
      [c5PureCell]).1 [c5PureCell] (by rfl),
   (C5_collect_sighash_stop_condition (fun _ => true) "addr" 100 []).2
      "addr" 0 (by rfl)⟩

/-- The immature cell with a type script and cell data used for C4. -/
def c4BadCell : LiveCellInfo :=
  { capacity := 500, data_bytes := 8,
    type_hashes := some (List.replicate 32 1), number := 0 }

/-- Claim C4 (code bug): the terminator of `collect_sighash_cells`
parenthesizes its skip condition as (NOT pure) AND mature, so a cell that
is immature (`mature` answers false) and impure (a type script and 8 data
bytes) is NOT skipped: it is accepted, its capacity is counted, and it is
returned — the claim requires every accepted cell to be mature and pure. -/
theorem C4_accepts_immature_impure_cell :
    sighashSkip (fun _ => false) c4BadCell = false ∧
    collect_sighash_cells (fun _ => false) "addr2" 500 [c4BadCell] =
      .ok [c4BadCell] :=
  ⟨rfl, rfl⟩

-- ===== DAO cell classification (src/src/subcommands/dao/mod.rs lines 345-359) =====

/-- `LittleEndian::read_u64` over the first eight bytes of the fetched cell
data (`content.as_bytes()[0..8]`). -/
def read_u64_le (content : List Nat) : Nat :=
  leValue (content.take 8)

/-- `is_deposit_cell` (`src/src/subcommands/dao/mod.rs` lines 345-351),
applied to the cell data fetched by the external `get_cell_data`; `none`
models the slice panic on data shorter than eight bytes. -/
def is_deposit_cell (content : List Nat) : Option Bool :=
  if 8 ≤ content.length then some (read_u64_le content == 0) else none

/-- `is_prepare_cell` (`src/src/subcommands/dao/mod.rs` lines 353-359). -/
def is_prepare_cell (content : List Nat) : Option Bool :=
  if 8 ≤ content.length then some (!(read_u64_le content == 0)) else none

/-- Claim C8: for every fetched DAO cell data of at least eight bytes,
`is_deposit_cell` holds iff the first eight bytes decode little-endian to
zero, `is_prepare_cell` holds iff they decode to a non-zero value, and the
two classifications are mutually exclusive and exhaustive. -/
theorem C8_dao_cell_classification (content : List Nat) (h8 : 8 ≤ content.length) :
    (is_deposit_cell content = some true ↔ read_u64_le content = 0) ∧
    (is_prepare_cell content = some true ↔ read_u64_le content ≠ 0) ∧
    (∀ b, is_deposit_cell content = some b ↔ is_prepare_cell content = some (!b)) := by
  refine ⟨?_, ?_, ?_⟩
  · simp [is_deposit_cell, h8]
  · simp [is_prepare_cell, h8]
  · intro b
    rcases b <;> simp [is_deposit_cell, is_prepare_cell, h8]

/-- Witness for C8 at the all-zero eight-byte deposit data. -/
theorem C8_dao_cell_classification_witness :
    8 ≤ (List.replicate 8 0 : List Nat).length ∧
    ((is_deposit_cell (List.replicate 8 0) = some true ↔
        read_u64_le (List.replicate 8 0) = 0) ∧
     (is_prepare_cell (List.replicate 8 0) = some true ↔
        read_u64_le (List.replicate 8 0) ≠ 0) ∧
     (∀ b, is_deposit_cell (List.replicate 8 0) = some b ↔
        is_prepare_cell (List.replicate 8 0) = some (!b))) :=
  ⟨by decide, C8_dao_cell_classification (List.replicate 8 0) (by decide)⟩
